import Mathlib

/-!
Verification of the local resilience layer of the SlashCommand mobile chat
client: the vector store with its embedding cache (src/utils/openai.ts,
class VectorDatabase) and the offline sync queue (OfflineQueueService).

The TypeScript classes hold their state in module-level fields; here that
state is threaded explicitly.  JavaScript Map objects preserve insertion
order, so each map is modelled as an association list in insertion order,
with JavaScript Map.set semantics (update in place, append when fresh).
Long-latency provider calls (createEmbedding, sendMessage) are modelled as
parameters: an embedding provider String to Option (List K) where none is a
thrown ProviderError, and a delivery function String to Bool giving the
outcome per queued-item id.  The OpenAI singleton obtained by getOpenAI()
is a parameter of type Option: none models the unconfigured singleton,
whose getter throws — in search and findSimilar that call sits outside the
try/catch, so the throw propagates to the caller, modelled by an Except
result.  The outcome of the awaited AsyncStorage.setItem of the documents
snapshot inside saveToStorage is a Bool parameter, since a throw there is
swallowed and skips the cache prune.  Math.sqrt is an opaque runtime
primitive and is passed as a parameter sqrtFn; the analytic theorems
instantiate it with Real.sqrt over the reals, the idealisation of the
float arithmetic.  All functions are modelled after the service has
initialised (the initialisation path only loads persisted snapshots).
-/

set_option autoImplicit false

namespace SlashCommand

/-- Message role, from the Message interface in src/utils/storage.ts. -/
inductive Role where
  | user
  | assistant
deriving DecidableEq, Repr

/-- One chat message (src/utils/storage.ts, interface Message); the Date
timestamp is modelled as epoch milliseconds. -/
structure Message where
  id : String
  role : Role
  content : String
  timestamp : Int
deriving DecidableEq, Repr

/-- One conversation (src/utils/storage.ts, interface Session); only the
fields read by VectorDatabase.indexSession are kept. -/
structure Session where
  id : String
  title : String
  messages : List Message
deriving DecidableEq, Repr

/-- An indexed document (src/utils/openai.ts, interface VectorDocument); the
metadata sub-object is flattened into the role and sessionTitle fields. -/
structure VectorDocument (K : Type) where
  id : String
  sessionId : String
  messageId : String
  content : String
  embedding : List K
  timestamp : Int
  role : Role
  sessionTitle : String
deriving DecidableEq, Repr

/-- A search hit (src/utils/openai.ts, interface SearchResult). -/
structure SearchResult (K : Type) where
  sessionId : String
  messageId : String
  content : String
  score : K
  sessionTitle : String
  timestamp : Int
deriving DecidableEq, Repr

/-- The mutable state of class VectorDatabase: the documents map and the
embedding cache, each a JavaScript Map in insertion order. -/
structure VectorDB (K : Type) where
  documents : List (String × VectorDocument K)
  embeddingCache : List (String × List K)
deriving DecidableEq, Repr

/-- JavaScript Map.get: first binding of the key, if any. -/
def mapGet {B : Type} : List (String × B) → String → Option B
  | [], _ => none
  | (k, v) :: rest, key => if k = key then some v else mapGet rest key

/-- JavaScript Map.set: overwrite in place when the key is present, append
otherwise (insertion order is preserved). -/
def mapSet {B : Type} : List (String × B) → String → B → List (String × B)
  | [], key, v => [(key, v)]
  | (k, w) :: rest, key, v =>
      if k = key then (key, v) :: rest else (k, w) :: mapSet rest key v

variable {K : Type} [LinearOrderedField K]

/-- Sum of pointwise products, the accumulation loop shared by the three
accumulators of VectorDatabase.cosineSimilarity (lines 599-603). -/
def dotList (a b : List K) : K :=
  (List.zipWith (fun x y => x * y) a b).sum

/-- VectorDatabase.cosineSimilarity (src/utils/openai.ts lines 589-607):
vectors of different lengths score 0; otherwise dot / (sqrt norm1 * sqrt
norm2), with 0 when that denominator is 0.  The loop runs over the indices
of vec1; in the branch where it is reached the lengths agree, so the
truncating zipWith in dotList computes the same sums. -/
def cosineSimilarity (sqrtFn : K → K) (vec1 vec2 : List K) : K :=
  if vec1.length ≠ vec2.length then 0
  else
    let dotProduct := dotList vec1 vec2
    let norm1 := dotList vec1 vec1
    let norm2 := dotList vec2 vec2
    let denominator := sqrtFn norm1 * sqrtFn norm2
    if denominator = 0 then 0 else dotProduct / denominator

/-- Comparator relation of results.sort in search and findSimilar: the
callback b.score - a.score orders entries by descending score.  a precedes b
whenever the comparator does not require a after b, that is b.2 ≤ a.2. -/
def scoreDominates (a b : VectorDocument K × K) : Prop :=
  b.2 ≤ a.2

instance : DecidableRel (scoreDominates (K := K)) :=
  fun a b => inferInstanceAs (Decidable (b.2 ≤ a.2))

instance : IsTotal (VectorDocument K × K) scoreDominates :=
  ⟨fun a b => le_total b.2 a.2⟩

instance : IsTrans (VectorDocument K × K) scoreDominates :=
  ⟨fun _ _ _ hab hbc => le_trans hbc hab⟩

/-- Projection of a scored document to a SearchResult, as in the final map
of search (lines 497-504) and findSimilar (lines 544-551). -/
def toSearchResult (p : VectorDocument K × K) : SearchResult K :=
  { sessionId := p.1.sessionId
    messageId := p.1.messageId
    content := p.1.content
    score := p.2
    sessionTitle := p.1.sessionTitle
    timestamp := p.1.timestamp }

/-- VectorDatabase.search (src/utils/openai.ts lines 473-509).  Empty
document map: return ok [] before touching the provider.  The call
getOpenAI() at line 480 sits outside the try/catch and throws when the
singleton was never configured (lines 334-338); openAIRef none models that
uncaught error, which propagates to the caller as an Except.error carrying
the thrown message.  Inside the try, a failed createEmbedding call (the
embedding function returning none) is caught at lines 505-508 and yields
ok [].  Otherwise every document is scored by cosine similarity against
the query embedding and the scored list is sorted by the comparator
b.score - a.score; Array.prototype.sort is stable (ECMAScript 2019), which
insertionSort over scoreDominates models.  The method never writes to the
state, so the state is returned unchanged. -/
def search (sqrtFn : K → K) (openAIRef : Option (String → Option (List K)))
    (db : VectorDB K) (query : String) (limit : Nat) :
    Except String (List (SearchResult K)) × VectorDB K :=
  if db.documents.length = 0 then (Except.ok [], db)
  else
    match openAIRef with
    | none =>
        (Except.error "OpenAI not initialized. Please set your API key in settings.", db)
    | some embedFn =>
        match embedFn query with
        | none => (Except.ok [], db)
        | some queryEmbedding =>
            let results := db.documents.map
              (fun kv => (kv.2, cosineSimilarity sqrtFn queryEmbedding kv.2.embedding))
            let sorted := List.insertionSort scoreDominates results
            (Except.ok ((sorted.take limit).map toSearchResult), db)

/-- VectorDatabase.findSimilar (src/utils/openai.ts lines 514-556).  As in
search, getOpenAI() at line 517 precedes the try/catch, so an unconfigured
singleton (openAIRef none) throws to the caller even when the cache would
have hit.  Inside the try the embedding is taken from the cache when
present, otherwise freshly computed; note the fresh embedding is not
written back to the cache.  A failed createEmbedding call is caught and
yields ok [].  Documents from the excluded session or with exactly the
same content are skipped, and only scores above 0.7 are kept, the loop
preserving document order. -/
def findSimilar (sqrtFn : K → K) (openAIRef : Option (String → Option (List K)))
    (db : VectorDB K) (messageContent : String)
    (excludeSessionId : Option String) (limit : Nat) :
    Except String (List (SearchResult K)) × VectorDB K :=
  match openAIRef with
  | none =>
      (Except.error "OpenAI not initialized. Please set your API key in settings.", db)
  | some embedFn =>
      let looked :=
        match mapGet db.embeddingCache messageContent with
        | some e => some e
        | none => embedFn messageContent
      match looked with
      | none => (Except.ok [], db)
      | some embedding =>
          let results := db.documents.filterMap (fun kv =>
            let doc := kv.2
            let excluded :=
              (match excludeSessionId with
               | some ex => decide (doc.sessionId = ex)
               | none => false) || decide (doc.content = messageContent)
            if excluded then none
            else
              let score := cosineSimilarity sqrtFn embedding doc.embedding
              if (7 : K) / 10 < score then some (doc, score) else none)
          let sorted := List.insertionSort scoreDominates results
          (Except.ok ((sorted.take limit).map toSearchResult), db)

/-- The document built and upserted for one message inside
VectorDatabase.indexSession (lines 431-445). -/
def upsertDoc (db : VectorDB K) (session : Session) (message : Message)
    (docId : String) (embedding : List K) : VectorDB K :=
  let doc : VectorDocument K :=
    { id := docId
      sessionId := session.id
      messageId := message.id
      content := message.content
      embedding := embedding
      timestamp := message.timestamp
      role := message.role
      sessionTitle := session.title }
  { db with documents := mapSet db.documents docId doc }

/-- One iteration of the message loop of VectorDatabase.indexSession (lines
410-446), threading the state together with the number of provider calls
made so far.  A message whose document already exists with identical content
is skipped; otherwise the embedding comes from the cache or from one
provider call, a failed call skipping just that message. -/
def indexStep (embedFn : String → Option (List K)) (session : Session)
    (acc : VectorDB K × Nat) (message : Message) : VectorDB K × Nat :=
  let db := acc.1
  let calls := acc.2
  let docId := session.id ++ "_" ++ message.id
  let unchanged :=
    match mapGet db.documents docId with
    | some existingDoc => decide (existingDoc.content = message.content)
    | none => false
  if unchanged then (db, calls)
  else
    match mapGet db.embeddingCache message.content with
    | some embedding => (upsertDoc db session message docId embedding, calls)
    | none =>
        match embedFn message.content with
        | none => (db, calls + 1)
        | some embedding =>
            (upsertDoc
              { db with embeddingCache :=
                  mapSet db.embeddingCache message.content embedding }
              session message docId embedding, calls + 1)

/-- VectorDatabase.saveToStorage (src/utils/openai.ts lines 612-636): the
persistence step.  The prune (lines 622-626) runs only after the awaited
setItem of the documents snapshot (line 619) returns without throwing; a
throw jumps to the swallowing catch at line 633 and skips the prune, so
the docsWriteOk parameter models that write's outcome.  When the write
succeeds and the embedding cache holds more than 1000 entries, only the
last 500 of the entries array are kept (slice(-500)); this in-memory prune
precedes the cache setItem at line 632, whose own failure therefore cannot
undo it.  The documents map is never mutated on any path. -/
def saveToStorage (docsWriteOk : Bool) (db : VectorDB K) : VectorDB K :=
  if docsWriteOk then
    if 1000 < db.embeddingCache.length then
      { db with embeddingCache :=
          db.embeddingCache.drop (db.embeddingCache.length - 500) }
    else db
  else db

/-- VectorDatabase.indexSession (src/utils/openai.ts lines 404-450): the
message loop followed by the persistence step, threading the outcome of
the documents-snapshot write into saveToStorage.  The second component
counts the createEmbedding provider calls performed.  The getOpenAI() call
at line 407 throws before the loop when the singleton is unconfigured;
that path performs no provider call and mutates neither map, so the model
starts after the handle is obtained. -/
def indexSession (embedFn : String → Option (List K)) (docsWriteOk : Bool)
    (db : VectorDB K) (session : Session) : VectorDB K × Nat :=
  let r := session.messages.foldl (indexStep embedFn session) (db, 0)
  (saveToStorage docsWriteOk r.1, r.2)

/-- Queue item status (src/unnamed/part_001, QueuedMessage.status). -/
inductive QStatus where
  | pending
  | syncing
  | failed
deriving DecidableEq, Repr

/-- One queued outbound message (src/unnamed/part_001, interface
QueuedMessage); the Date timestamp is epoch milliseconds. -/
structure QueuedMessage where
  id : String
  sessionId : String
  message : Message
  timestamp : Int
  retryCount : Nat
  status : QStatus
  error : Option String
deriving DecidableEq, Repr

/-- Derived sync status (src/unnamed/part_001, interface SyncStatus). -/
structure SyncStatus where
  lastSync : Option Int
  pendingCount : Nat
  failedCount : Nat
  isOnline : Bool
  isSyncing : Bool
deriving DecidableEq, Repr

/-- The pending-message snapshot taken at the top of
OfflineQueueService.syncQueue (line 143). -/
def pendingOf (queue : List QueuedMessage) : List QueuedMessage :=
  queue.filter (fun q => decide (q.status = QStatus.pending))

/-- The marking step of syncQueue (lines 147-149): every pending item is
flipped to syncing; the snapshot aliases the queue entries, so this is a
map over the whole queue. -/
def markSyncing (queue : List QueuedMessage) : List QueuedMessage :=
  queue.map (fun q =>
    if q.status = QStatus.pending then { q with status := QStatus.syncing } else q)

/-- The failure branch of the syncQueue loop (lines 160-167): increment
retryCount, then mark failed once it reaches MAX_RETRIES = 3, otherwise
return the item to pending. -/
def bump (errMsg : String) (q : QueuedMessage) : QueuedMessage :=
  let r := q.retryCount + 1
  if 3 ≤ r then { q with retryCount := r, status := QStatus.failed, error := some errMsg }
  else { q with retryCount := r, status := QStatus.pending }

/-- One iteration of the delivery loop of syncQueue (lines 152-169): on a
successful send the item is filtered out of the queue by id; on a failure
the aliased queue entry is updated by bump. -/
def processItem (send : String → Bool) (errMsg : String)
    (queue : List QueuedMessage) (itemId : String) : List QueuedMessage :=
  if send itemId then queue.filter (fun q => decide (q.id ≠ itemId))
  else queue.map (fun q => if q.id = itemId then bump errMsg q else q)

/-- OfflineQueueService.syncQueue (src/unnamed/part_001 lines 140-178): a
no-op when offline or when no item is pending; otherwise the pending
snapshot is marked syncing and each captured item is attempted in order.
The send parameter gives each attempt's outcome by item id. -/
def syncQueue (send : String → Bool) (errMsg : String) (isOnline : Bool)
    (queue : List QueuedMessage) : List QueuedMessage :=
  if !isOnline then queue
  else
    let pendingMessages := pendingOf queue
    if pendingMessages.length = 0 then queue
    else (pendingMessages.map (fun q => q.id)).foldl (processItem send errMsg)
          (markSyncing queue)

/-- OfflineQueueService.retryFailed (lines 200-211): every failed item is
reset to pending with retryCount 0 and its error cleared. -/
def retryFailed (queue : List QueuedMessage) : List QueuedMessage :=
  queue.map (fun q =>
    if q.status = QStatus.failed then
      { q with status := QStatus.pending, retryCount := 0, error := none }
    else q)

/-- OfflineQueueService.queueMessage (lines 79-97): append a fresh pending
item (sync triggering is handled by syncQueue separately). -/
def queueMessage (newId : String) (sessionId : String) (message : Message)
    (now : Int) (queue : List QueuedMessage) : List QueuedMessage :=
  queue ++ [{ id := newId, sessionId := sessionId, message := message,
              timestamp := now, retryCount := 0, status := QStatus.pending,
              error := none }]

/-- OfflineQueueService.getSyncStatus (src/unnamed/part_001 lines 109-123):
the counts and flags come from the in-memory queue and the cached network
flag, but lastSync is read back from AsyncStorage (the awaited getItem on
SYNC_STATUS_KEY), modelled by the storedLastSync parameter holding the
persisted value. -/
def getSyncStatus (queue : List QueuedMessage) (isOnline : Bool)
    (storedLastSync : Option Int) : SyncStatus :=
  { lastSync := storedLastSync
    pendingCount := (queue.filter (fun q => decide (q.status = QStatus.pending))).length
    failedCount := (queue.filter (fun q => decide (q.status = QStatus.failed))).length
    isOnline := isOnline
    isSyncing := queue.any (fun q => decide (q.status = QStatus.syncing)) }

/-- The outcome of attempting one queued item once, the body of the
syncQueue loop restricted to a single item: success removes it (none),
failure applies bump. -/
def attemptOutcome (errMsg : String) (q : QueuedMessage) (success : Bool) :
    Option QueuedMessage :=
  if success then none else some (bump errMsg q)

/-- The life of a single item across successive sync passes, one delivery
outcome per pass; the item disappears on its first success. -/
def runAttempts (errMsg : String) : QueuedMessage → List Bool → Option QueuedMessage
  | q, [] => some q
  | q, outcome :: rest =>
      match attemptOutcome errMsg q outcome with
      | none => none
      | some q2 => runAttempts errMsg q2 rest

/-- Sample message used by the concrete witnesses. -/
def wMsg : Message :=
  { id := "m1", role := Role.user, content := "hi", timestamp := 0 }

/-- Sample fresh queue item (retryCount 0, pending). -/
def wFresh : QueuedMessage :=
  { id := "a", sessionId := "s1", message := wMsg, timestamp := 0,
    retryCount := 0, status := QStatus.pending, error := none }

/-- Second sample queue item, enqueued while a pass is in flight. -/
def wLate : QueuedMessage :=
  { id := "b", sessionId := "s1", message := wMsg, timestamp := 1,
    retryCount := 0, status := QStatus.pending, error := none }

/-- The sample fresh item after one failed delivery attempt: bumped back to
Pending with retryCount 1. -/
def wBumped : QueuedMessage :=
  { id := "a", sessionId := "s1", message := wMsg, timestamp := 0,
    retryCount := 1, status := QStatus.pending, error := none }

/-- Sample indexed document over the rationals, matching wMsg in wSession. -/
def wDoc : VectorDocument ℚ :=
  { id := "s1_m1", sessionId := "s1", messageId := "m1", content := "hi",
    embedding := [1], timestamp := 0, role := Role.user, sessionTitle := "t" }

/-- Sample store over the rationals holding exactly wDoc. -/
def wDB : VectorDB ℚ :=
  { documents := [("s1_m1", wDoc)], embeddingCache := [] }

/-- Sample session whose single message is already indexed as wDoc. -/
def wSession : Session :=
  { id := "s1", title := "t", messages := [wMsg] }

/-- An embedding cache with 1001 entries, one over the pruning threshold. -/
def wBigCache : List (String × List ℚ) :=
  (List.range 1001).map (fun i => (toString i, []))

/-- Sample real-valued document whose embedding is the unit vector [1]. -/
def wDocR : VectorDocument ℝ :=
  { id := "s_m", sessionId := "s", messageId := "m", content := "hello",
    embedding := [1], timestamp := 0, role := Role.user, sessionTitle := "t" }

/-- Sample real-valued store holding exactly wDocR. -/
def wDBR : VectorDB ℝ :=
  { documents := [("s_m", wDocR)], embeddingCache := [] }

/-- Older document (timestamp 10, inserted first) with embedding [1]. -/
def wDocOld : VectorDocument ℝ :=
  { id := "s1_a", sessionId := "s1", messageId := "a", content := "x",
    embedding := [1], timestamp := 10, role := Role.user, sessionTitle := "t" }

/-- Newer document (timestamp 20, inserted second) with embedding [1]. -/
def wDocNew : VectorDocument ℝ :=
  { id := "s1_b", sessionId := "s1", messageId := "b", content := "y",
    embedding := [1], timestamp := 20, role := Role.user, sessionTitle := "t" }

/-- Store holding wDocOld then wDocNew, in that insertion order. -/
def wDB2 : VectorDB ℝ :=
  { documents := [("s1_a", wDocOld), ("s1_b", wDocNew)], embeddingCache := [] }

/-! Helper lemmas about dot products and cosine similarity. -/

lemma dotList_cons (x : K) (a : List K) (y : K) (b : List K) :
    dotList (x :: a) (y :: b) = x * y + dotList a b := by
  simp [dotList]

lemma dotList_comm (a b : List K) : dotList a b = dotList b a := by
  induction a generalizing b with
  | nil => cases b <;> simp [dotList]
  | cons x a ih =>
      cases b with
      | nil => simp [dotList]
      | cons y b => rw [dotList_cons, dotList_cons, mul_comm, ih]

lemma dotList_self_nonneg (a : List K) : 0 ≤ dotList a a := by
  induction a with
  | nil => simp [dotList]
  | cons x a ih => rw [dotList_cons]; exact add_nonneg (mul_self_nonneg x) ih

lemma sum_sq_expand (x y : K) (l : List (K × K)) :
    (l.map (fun p => (x * p.2 - y * p.1) ^ 2)).sum
      = x ^ 2 * (l.map (fun p => p.2 * p.2)).sum
        - 2 * x * y * (l.map (fun p => p.1 * p.2)).sum
        + y ^ 2 * (l.map (fun p => p.1 * p.1)).sum := by
  induction l with
  | nil => simp
  | cons p l ih => simp [ih]; ring

lemma pairs_sq_sum_nonneg (f : K × K → K) (l : List (K × K)) :
    0 ≤ (l.map (fun p => (f p) ^ 2)).sum :=
  List.sum_nonneg (by
    intro z hz
    obtain ⟨p, _, rfl⟩ := List.mem_map.mp hz
    exact sq_nonneg _)

lemma pairs_mul_self_sum_nonneg (f : K × K → K) (l : List (K × K)) :
    0 ≤ (l.map (fun p => f p * f p)).sum :=
  List.sum_nonneg (by
    intro z hz
    obtain ⟨p, _, rfl⟩ := List.mem_map.mp hz
    exact mul_self_nonneg _)

lemma pairs_cs (l : List (K × K)) :
    ((l.map fun p => p.1 * p.2).sum) ^ 2
      ≤ ((l.map fun p => p.1 * p.1).sum) * ((l.map fun p => p.2 * p.2).sum) := by
  induction l with
  | nil => simp
  | cons p l ih =>
      have hA := pairs_mul_self_sum_nonneg (fun p => p.1) l
      have hB := pairs_mul_self_sum_nonneg (fun p => p.2) l
      have hT := pairs_sq_sum_nonneg (fun q => p.1 * q.2 - p.2 * q.1) l
      rw [sum_sq_expand p.1 p.2 l] at hT
      simp only [List.map_cons, List.sum_cons]
      nlinarith [ih, hT, hA, hB]

lemma dotList_zip_prod (a b : List K) :
    dotList a b = ((a.zip b).map fun p => p.1 * p.2).sum := by
  induction a generalizing b with
  | nil => cases b <;> simp [dotList]
  | cons x a ih =>
      cases b with
      | nil => simp [dotList]
      | cons y b => rw [dotList_cons, List.zip_cons_cons, List.map_cons, List.sum_cons, ih]

lemma zip_fst_sq (a b : List K) (h : a.length = b.length) :
    ((a.zip b).map fun p => p.1 * p.1).sum = dotList a a := by
  induction a generalizing b with
  | nil => simp [dotList]
  | cons x a ih =>
      cases b with
      | nil => simp at h
      | cons y b =>
          rw [List.zip_cons_cons, List.map_cons, List.sum_cons, dotList_cons,
            ih b (by simpa using h)]

lemma zip_snd_sq (a b : List K) (h : a.length = b.length) :
    ((a.zip b).map fun p => p.2 * p.2).sum = dotList b b := by
  induction a generalizing b with
  | nil =>
      cases b with
      | nil => simp [dotList]
      | cons y b => simp at h
  | cons x a ih =>
      cases b with
      | nil => simp at h
      | cons y b =>
          rw [List.zip_cons_cons, List.map_cons, List.sum_cons, dotList_cons,
            ih b (by simpa using h)]

lemma dotList_cs (a b : List K) (h : a.length = b.length) :
    (dotList a b) ^ 2 ≤ dotList a a * dotList b b := by
  rw [dotList_zip_prod a b, ← zip_fst_sq a b h, ← zip_snd_sq a b h]
  exact pairs_cs (a.zip b)

lemma cosineSimilarity_comm (sqrtFn : K → K) (a b : List K) :
    cosineSimilarity sqrtFn a b = cosineSimilarity sqrtFn b a := by
  by_cases h : a.length = b.length
  · simp only [cosineSimilarity, if_neg (not_ne_iff.mpr h),
      if_neg (not_ne_iff.mpr h.symm), dotList_comm a b,
      mul_comm (sqrtFn (dotList a a)) (sqrtFn (dotList b b))]
  · simp only [cosineSimilarity, if_pos h, if_pos (Ne.symm h)]

lemma cosineSimilarity_abs_le (a b : List ℝ) :
    -1 ≤ cosineSimilarity Real.sqrt a b ∧ cosineSimilarity Real.sqrt a b ≤ 1 := by
  by_cases hlen : a.length = b.length
  · by_cases hden : Real.sqrt (dotList a a) * Real.sqrt (dotList b b) = 0
    · rw [cosineSimilarity, if_neg (not_ne_iff.mpr hlen)]
      simp only [if_pos hden]
      norm_num
    · rw [cosineSimilarity, if_neg (not_ne_iff.mpr hlen)]
      simp only [if_neg hden]
      have hnn : (0 : ℝ) ≤ Real.sqrt (dotList a a) * Real.sqrt (dotList b b) :=
        mul_nonneg (Real.sqrt_nonneg _) (Real.sqrt_nonneg _)
      have hpos : (0 : ℝ) < Real.sqrt (dotList a a) * Real.sqrt (dotList b b) :=
        lt_of_le_of_ne hnn (Ne.symm hden)
      have habs : |dotList a b|
          ≤ Real.sqrt (dotList a a) * Real.sqrt (dotList b b) := by
        rw [← Real.sqrt_sq_eq_abs, ← Real.sqrt_mul (dotList_self_nonneg a)]
        exact Real.sqrt_le_sqrt (dotList_cs a b hlen)
      obtain ⟨hlow, hhigh⟩ := abs_le.mp habs
      constructor
      · rw [le_div_iff₀ hpos]; linarith
      · rw [div_le_one hpos]; exact hhigh
  · rw [cosineSimilarity, if_pos hlen]
    norm_num

lemma cosineSimilarity_self_eq_one (a : List ℝ) (h : dotList a a ≠ 0) :
    cosineSimilarity Real.sqrt a a = 1 := by
  simp only [cosineSimilarity, ne_eq, not_true_eq_false, if_false,
    if_neg (not_ne_iff.mpr rfl)]
  rw [Real.mul_self_sqrt (dotList_self_nonneg a), if_neg h, div_self h]

omit [LinearOrderedField K] in
lemma saveToStorage_documents (w : Bool) (db : VectorDB K) :
    (saveToStorage w db).documents = db.documents := by
  unfold saveToStorage; split <;> [skip; rfl]; split <;> rfl

/-! Helper lemmas about the sync queue. -/

lemma pendingOf_markSyncing (q : List QueuedMessage) :
    pendingOf (markSyncing q) = [] := by
  induction q with
  | nil => rfl
  | cons x t ih =>
      by_cases h : x.status = QStatus.pending <;>
        simp [pendingOf, markSyncing, h] at ih ⊢ <;> simpa [pendingOf, markSyncing] using ih

lemma pendingOf_append (a b : List QueuedMessage) :
    pendingOf (a ++ b) = pendingOf a ++ pendingOf b := by
  simp [pendingOf]

lemma bump_id (errMsg : String) (q : QueuedMessage) : (bump errMsg q).id = q.id := by
  simp only [bump]; split <;> rfl

lemma bump_retryCount (errMsg : String) (q : QueuedMessage) :
    (bump errMsg q).retryCount = q.retryCount + 1 := by
  simp only [bump]; split <;> rfl

lemma bump_status (errMsg : String) (q : QueuedMessage) :
    (bump errMsg q).status
      = if 3 ≤ q.retryCount + 1 then QStatus.failed else QStatus.pending := by
  simp only [bump]; split <;> simp_all

lemma processItem_origin (send : String → Bool) (errMsg : String)
    (acc : List QueuedMessage) (itemId : String) :
    ∀ x ∈ processItem send errMsg acc itemId,
      ∃ y ∈ acc, x = y ∨ x = bump errMsg y := by
  intro x hx
  unfold processItem at hx
  split at hx
  · exact ⟨x, (List.mem_filter.mp hx).1, Or.inl rfl⟩
  · obtain ⟨y, hy, hxy⟩ := List.mem_map.mp hx
    by_cases h : y.id = itemId
    · exact ⟨y, hy, Or.inr (by rw [← hxy]; simp [h])⟩
    · exact ⟨y, hy, Or.inl (by rw [← hxy]; simp [h])⟩

lemma foldl_processItem_origin (send : String → Bool) (errMsg : String) :
    ∀ (ids : List String) (acc : List QueuedMessage),
      ∀ x ∈ ids.foldl (processItem send errMsg) acc,
        ∃ y ∈ acc, x.id = y.id ∧ y.retryCount ≤ x.retryCount := by
  intro ids
  induction ids with
  | nil => exact fun acc x hx => ⟨x, hx, rfl, le_rfl⟩
  | cons i rest ih =>
      intro acc x hx
      obtain ⟨y1, hy1, hid1, hrc1⟩ := ih (processItem send errMsg acc i) x hx
      obtain ⟨y, hy, hcase⟩ := processItem_origin send errMsg acc i y1 hy1
      rcases hcase with h1 | h1
      · exact ⟨y, hy, by rw [hid1, h1], by rw [← h1]; exact hrc1⟩
      · refine ⟨y, hy, by rw [hid1, h1, bump_id], ?_⟩
        have h2 := bump_retryCount errMsg y
        rw [h1, h2] at hrc1
        omega

lemma markSyncing_origin (q : List QueuedMessage) :
    ∀ x ∈ markSyncing q, ∃ y ∈ q, x.id = y.id ∧ x.retryCount = y.retryCount := by
  intro x hx
  obtain ⟨y, hy, hxy⟩ := List.mem_map.mp hx
  by_cases h : y.status = QStatus.pending
  · exact ⟨y, hy, by rw [← hxy]; simp [h], by rw [← hxy]; simp [h]⟩
  · exact ⟨y, hy, by rw [← hxy]; simp [h], by rw [← hxy]; simp [h]⟩

lemma syncQueue_origin (send : String → Bool) (errMsg : String) (online : Bool)
    (queue : List QueuedMessage) :
    ∀ x ∈ syncQueue send errMsg online queue,
      ∃ y ∈ queue, x.id = y.id ∧ y.retryCount ≤ x.retryCount := by
  intro x hx
  simp only [syncQueue] at hx
  split at hx
  · exact ⟨x, hx, rfl, le_rfl⟩
  · split at hx
    · exact ⟨x, hx, rfl, le_rfl⟩
    · obtain ⟨y1, hy1, hid, hrc⟩ := foldl_processItem_origin send errMsg _ _ x hx
      obtain ⟨y, hy, hid2, hrc2⟩ := markSyncing_origin queue y1 hy1
      exact ⟨y, hy, hid.trans hid2, by omega⟩

lemma retryFailed_origin (queue : List QueuedMessage) :
    ∀ x ∈ retryFailed queue,
      (∃ y ∈ queue, y.status = QStatus.failed ∧
        x = { y with status := QStatus.pending, retryCount := 0, error := none }) ∨
      (∃ y ∈ queue, y.status ≠ QStatus.failed ∧ x = y) := by
  intro x hx
  obtain ⟨y, hy, hxy⟩ := List.mem_map.mp hx
  by_cases h : y.status = QStatus.failed
  · exact Or.inl ⟨y, hy, h, by rw [← hxy]; simp [h]⟩
  · exact Or.inr ⟨y, hy, h, by rw [← hxy]; simp [h]⟩

lemma iterate_bump_retryCount (errMsg : String) (q0 : QueuedMessage)
    (h0 : q0.retryCount = 0) : ∀ k, ((bump errMsg)^[k] q0).retryCount = k := by
  intro k
  induction k with
  | zero => simpa
  | succ n ih => rw [Function.iterate_succ_apply', bump_retryCount, ih]

lemma markSyncing_not_pending (q : List QueuedMessage) :
    ∀ y ∈ markSyncing q, y.status ≠ QStatus.pending := by
  intro y hy
  obtain ⟨z, _, hzy⟩ := List.mem_map.mp hy
  by_cases h : z.status = QStatus.pending
  · rw [← hzy]; simp [h]
  · rw [← hzy]; simp [h]

lemma foldl_processItem_origin_strict (send : String → Bool) (errMsg : String) :
    ∀ (ids : List String) (acc : List QueuedMessage),
      ∀ x ∈ ids.foldl (processItem send errMsg) acc,
        ∃ y ∈ acc, x = y ∨ (x.id = y.id ∧ y.retryCount < x.retryCount) := by
  intro ids
  induction ids with
  | nil => exact fun acc x hx => ⟨x, hx, Or.inl rfl⟩
  | cons i rest ih =>
      intro acc x hx
      obtain ⟨y1, hy1, hcase1⟩ := ih (processItem send errMsg acc i) x hx
      obtain ⟨y, hy, hcase2⟩ := processItem_origin send errMsg acc i y1 hy1
      rcases hcase1 with h1 | ⟨hid1, hlt1⟩ <;> rcases hcase2 with h2 | h2
      · exact ⟨y, hy, Or.inl (h1.trans h2)⟩
      · refine ⟨y, hy, Or.inr ⟨by rw [h1, h2, bump_id], ?_⟩⟩
        have := bump_retryCount errMsg y
        rw [h1, h2]
        omega
      · exact ⟨y, hy, Or.inr ⟨by rw [hid1, h2], by rw [← h2]; exact hlt1⟩⟩
      · refine ⟨y, hy, Or.inr ⟨by rw [hid1, h2, bump_id], ?_⟩⟩
        have h3 := bump_retryCount errMsg y
        rw [h2, h3] at hlt1
        omega

lemma midpass_capture (send : String → Bool) (errMsg : String)
    (q newItems : List QueuedMessage) (ids : List String) :
    ∀ x ∈ pendingOf (ids.foldl (processItem send errMsg) (markSyncing q) ++ newItems),
      x ∈ pendingOf newItems ∨ ∃ y ∈ q, x.id = y.id ∧ y.retryCount < x.retryCount := by
  intro x hx
  rw [pendingOf_append] at hx
  rcases List.mem_append.mp hx with hx | hx
  · right
    have hmem := (List.mem_filter.mp hx).1
    have hxp : x.status = QStatus.pending := by
      have := (List.mem_filter.mp hx).2
      simpa using this
    obtain ⟨y1, hy1, hcase⟩ :=
      foldl_processItem_origin_strict send errMsg ids (markSyncing q) x hmem
    rcases hcase with h | ⟨hid, hlt⟩
    · exact absurd (h ▸ hxp) (markSyncing_not_pending q y1 hy1)
    · obtain ⟨y, hy, hid2, hrc2⟩ := markSyncing_origin q y1 hy1
      exact ⟨y, hy, hid.trans hid2, by omega⟩
  · exact Or.inl hx

lemma processItem_removes (send : String → Bool) (errMsg : String)
    (acc : List QueuedMessage) (itemId : String) (hsend : send itemId = true) :
    ∀ x ∈ processItem send errMsg acc itemId, x.id ≠ itemId := by
  intro x hx
  unfold processItem at hx
  rw [if_pos hsend] at hx
  have := (List.mem_filter.mp hx).2
  simpa using this

lemma syncQueue_preserves_absent (send : String → Bool) (errMsg : String)
    (online : Bool) (queue : List QueuedMessage) (i : String)
    (h : ∀ x ∈ queue, x.id ≠ i) :
    ∀ x ∈ syncQueue send errMsg online queue, x.id ≠ i := by
  intro x hx
  obtain ⟨y, hy, hid, _⟩ := syncQueue_origin send errMsg online queue x hx
  rw [hid]
  exact h y hy

/-- C1 (amended): sync is a no-op when offline.  There is no explicit
in-flight flag; the guard is the Pending filter after marking: at the
instant after a pass has marked its captured items Syncing, a reentrant
sync is a no-op, and with items enqueued meanwhile it captures exactly
those new items.  At any later point of the in-flight pass (modelled by
the fold over any prefix of processed ids), a reentrant sync captures only
items enqueued after the pass began or captured items whose delivery
attempt has already failed, reverting them to Pending with a strictly
larger retryCount — never an item whose attempt is still in flight.  A
successfully delivered item is removed by its pass and, once absent,
no sync pass ever resurrects its id, so a delivered item is never
attempted again (no double-send). -/
theorem syncQueue_reentrancy :
    (∀ (send : String → Bool) (errMsg : String) (q : List QueuedMessage),
        syncQueue send errMsg false q = q) ∧
    (∀ (send : String → Bool) (errMsg : String) (q : List QueuedMessage),
        syncQueue send errMsg true (markSyncing q) = markSyncing q) ∧
    (∀ (q newItems : List QueuedMessage),
        pendingOf (markSyncing q ++ newItems) = pendingOf newItems) ∧
    (∀ (send : String → Bool) (errMsg : String)
        (q newItems : List QueuedMessage) (ids : List String),
      ∀ x ∈ pendingOf
          (ids.foldl (processItem send errMsg) (markSyncing q) ++ newItems),
        x ∈ pendingOf newItems ∨
          ∃ y ∈ q, x.id = y.id ∧ y.retryCount < x.retryCount) ∧
    (∀ (send : String → Bool) (errMsg : String) (acc : List QueuedMessage)
        (itemId : String), send itemId = true →
      ∀ x ∈ processItem send errMsg acc itemId, x.id ≠ itemId) ∧
    (∀ (send : String → Bool) (errMsg : String) (online : Bool)
        (queue : List QueuedMessage) (i : String), (∀ x ∈ queue, x.id ≠ i) →
      ∀ x ∈ syncQueue send errMsg online queue, x.id ≠ i) := by
  refine ⟨fun send errMsg q => rfl, fun send errMsg q => ?_, fun q newItems => ?_,
    fun send errMsg q newItems ids => midpass_capture send errMsg q newItems ids,
    fun send errMsg acc itemId h => processItem_removes send errMsg acc itemId h,
    fun send errMsg online queue i h =>
      syncQueue_preserves_absent send errMsg online queue i h⟩
  · simp [syncQueue, pendingOf_markSyncing]
  · simp [pendingOf_append, pendingOf_markSyncing]

/-- C1 witness: with the pass over the single fresh item a having failed
its attempt (reverting a to Pending with retryCount 1), a reentrant sync
captures exactly that reverted item, and a successful delivery of a
removes it from a two-item queue. -/
theorem syncQueue_reentrancy_witness :
    (wBumped ∈ pendingOf ([] : List QueuedMessage) ∨
      ∃ y ∈ [wFresh], wBumped.id = y.id ∧ y.retryCount < wBumped.retryCount) ∧
    wLate.id ≠ "a" := by
  constructor
  · exact syncQueue_reentrancy.2.2.2.1 (fun _ => false) "err" [wFresh] [] ["a"]
      wBumped (by decide)
  · exact syncQueue_reentrancy.2.2.2.2.1 (fun _ => true) "err" [wFresh, wLate]
      "a" rfl wLate (by decide)

/-- C1 counterexample: with item a captured by an in-flight pass (Syncing)
and item b enqueued afterwards, a reentrant sync call is not a no-op: it
delivers and removes b. -/
theorem syncQueue_inflight_not_noop :
    syncQueue (fun _ => true) "err" true (markSyncing [wFresh] ++ [wLate])
      ≠ markSyncing [wFresh] ++ [wLate] := by decide

/-- C2: every delivery failure increments retryCount by one; from a fresh
item k failures leave retryCount k, and reach Failed exactly at the third
failure; two failures followed by a success remove the item with no Failed
state observed; a sync pass never decreases any surviving item's
retryCount, and only the explicit user retry (retryFailed) resets a Failed
item to Pending with retryCount 0. -/
theorem retry_discipline (errMsg : String) (q0 : QueuedMessage)
    (h0 : q0.retryCount = 0) (hp : q0.status = QStatus.pending) :
    (∀ q, (bump errMsg q).retryCount = q.retryCount + 1) ∧
    (∀ k, ((bump errMsg)^[k] q0).retryCount = k) ∧
    (∀ k, k ≤ 3 → (((bump errMsg)^[k] q0).status = QStatus.failed ↔ k = 3)) ∧
    ((bump errMsg q0).status = QStatus.pending ∧
      (bump errMsg (bump errMsg q0)).status = QStatus.pending ∧
      runAttempts errMsg q0 [false, false, true] = none) ∧
    (∀ (send : String → Bool) (em : String) (online : Bool)
        (queue : List QueuedMessage), ∀ x ∈ syncQueue send em online queue,
        ∃ y ∈ queue, x.id = y.id ∧ y.retryCount ≤ x.retryCount) ∧
    (∀ queue : List QueuedMessage, ∀ x ∈ retryFailed queue,
      (∃ y ∈ queue, y.status = QStatus.failed ∧
        x = { y with status := QStatus.pending, retryCount := 0, error := none }) ∨
      (∃ y ∈ queue, y.status ≠ QStatus.failed ∧ x = y)) := by
  have hone : (bump errMsg q0).status = QStatus.pending := by
    rw [bump_status, h0]; norm_num
  have htwo : (bump errMsg (bump errMsg q0)).status = QStatus.pending := by
    rw [bump_status, bump_retryCount, h0]; norm_num
  refine ⟨bump_retryCount errMsg, iterate_bump_retryCount errMsg q0 h0, ?_,
    ⟨hone, htwo, by simp [runAttempts, attemptOutcome]⟩,
    fun send em online queue => syncQueue_origin send em online queue,
    retryFailed_origin⟩
  intro k hk
  match k with
  | 0 => simp [hp]
  | (n + 1) =>
      rw [Function.iterate_succ_apply', bump_status,
        iterate_bump_retryCount errMsg q0 h0 n]
      by_cases h : 3 ≤ n + 1 <;> simp [h] <;> omega

/-- C2 witness: the concrete fresh item fails three times and lands in
Failed; failing twice then succeeding removes it. -/
theorem retry_discipline_witness :
    ((bump "e")^[3] wFresh).status = QStatus.failed ∧
    runAttempts "e" wFresh [false, false, true] = none := by
  have h := retry_discipline "e" wFresh rfl rfl
  exact ⟨(h.2.2.1 3 le_rfl).mpr rfl, h.2.2.2.1.2.2⟩

/-- C7 (amended): pendingCount counts the Pending items, failedCount the
Failed ones, isSyncing holds exactly when some item is Syncing, and isOnline
is the cached network flag — all from the queue and cached state; but
lastSync is read back from the persisted sync-status storage entry, so
status does consult external storage. -/
theorem getSyncStatus_spec (queue : List QueuedMessage) (isOnline : Bool)
    (storedLastSync : Option Int) :
    (getSyncStatus queue isOnline storedLastSync).pendingCount
        = queue.countP (fun q => decide (q.status = QStatus.pending)) ∧
    (getSyncStatus queue isOnline storedLastSync).failedCount
        = queue.countP (fun q => decide (q.status = QStatus.failed)) ∧
    ((getSyncStatus queue isOnline storedLastSync).isSyncing = true ↔
      ∃ q ∈ queue, q.status = QStatus.syncing) ∧
    (getSyncStatus queue isOnline storedLastSync).isOnline = isOnline ∧
    (getSyncStatus queue isOnline storedLastSync).lastSync = storedLastSync := by
  refine ⟨?_, ?_, ?_, rfl, rfl⟩
  · simp [getSyncStatus, List.countP_eq_length_filter]
  · simp [getSyncStatus, List.countP_eq_length_filter]
  · simp [getSyncStatus, List.any_eq_true]

/-- C7 counterexample: with the queue and the cached network state held
fixed, the result still depends on the persisted sync-status entry, so the
status is not computed from queue contents and network state alone. -/
theorem getSyncStatus_reads_storage :
    getSyncStatus [] true (some 5) ≠ getSyncStatus [] true none := by decide

omit [LinearOrderedField K] in
lemma toSearchResult_score (p : VectorDocument K × K) :
    (toSearchResult p).score = p.2 := rfl

lemma sorted_take_map (l : List (VectorDocument K × K)) (limit : Nat) :
    (((List.insertionSort scoreDominates l).take limit).map toSearchResult).Sorted
      (fun r1 r2 => r2.score ≤ r1.score) := by
  have hs : (List.insertionSort scoreDominates l).Sorted scoreDominates :=
    List.sorted_insertionSort scoreDominates l
  have ht : ((List.insertionSort scoreDominates l).take limit).Pairwise scoreDominates :=
    List.Pairwise.sublist (List.take_sublist limit _) hs
  exact List.pairwise_map.mpr (ht.imp (fun h => h))

lemma out_mem (l : List (VectorDocument K × K)) (limit : Nat) (r : SearchResult K)
    (hr : r ∈ ((List.insertionSort scoreDominates l).take limit).map toSearchResult) :
    ∃ p ∈ l, r = toSearchResult p := by
  obtain ⟨p, hp, hpr⟩ := List.mem_map.mp hr
  exact ⟨p, (List.mem_insertionSort scoreDominates).mp (List.mem_of_mem_take hp),
    hpr.symm⟩

lemma out_length (l : List (VectorDocument K × K)) (limit : Nat) :
    (((List.insertionSort scoreDominates l).take limit).map toSearchResult).length
      = min limit l.length := by
  simp [List.length_take, List.length_insertionSort]

lemma out_head_one (l : List (VectorDocument K × K)) (limit : Nat)
    (hlim : 0 < limit) (x : VectorDocument K × K) (hx : x ∈ l) (hx1 : x.2 = 1)
    (hall : ∀ p ∈ l, p.2 ≤ 1) :
    ∃ r, (((List.insertionSort scoreDominates l).take limit).map
        toSearchResult).head? = some r ∧ r.score = 1 := by
  have hmem : x ∈ List.insertionSort scoreDominates l :=
    (List.mem_insertionSort scoreDominates).mpr hx
  have hsorted := List.sorted_insertionSort scoreDominates l
  cases hsort : List.insertionSort scoreDominates l with
  | nil => rw [hsort] at hmem; simp at hmem
  | cons hH tT =>
      rw [hsort] at hmem hsorted
      have hHl : hH ∈ l := (List.mem_insertionSort scoreDominates).mp
        (by rw [hsort]; exact List.mem_cons_self hH tT)
      have hH1 : hH.2 = 1 := by
        refine le_antisymm (hall hH hHl) ?_
        rcases List.mem_cons.mp hmem with h | h
        · rw [← h, hx1]
        · have hrel : x.2 ≤ hH.2 := List.rel_of_sorted_cons hsorted x h
          rw [hx1] at hrel
          exact hrel
      obtain ⟨n, rfl⟩ : ∃ n, limit = n + 1 := ⟨limit - 1, by omega⟩
      exact ⟨toSearchResult hH, rfl, hH1⟩

/-- C4: when the lengths agree and both norms are nonzero, cosine similarity
is dot(a,b) divided by the product of the Euclidean norms; it is 0 whenever
the lengths differ or either norm is 0 — mismatched dimensionality yields
similarity 0 and the function is total, never an error. -/
theorem cosineSimilarity_spec (a b : List ℝ) :
    (a.length ≠ b.length → cosineSimilarity Real.sqrt a b = 0) ∧
    (Real.sqrt (dotList a a) = 0 ∨ Real.sqrt (dotList b b) = 0 →
      cosineSimilarity Real.sqrt a b = 0) ∧
    (a.length = b.length → Real.sqrt (dotList a a) ≠ 0 →
      Real.sqrt (dotList b b) ≠ 0 →
      cosineSimilarity Real.sqrt a b
        = dotList a b / (Real.sqrt (dotList a a) * Real.sqrt (dotList b b))) := by
  refine ⟨fun h => ?_, fun h => ?_, fun hlen h1 h2 => ?_⟩
  · rw [cosineSimilarity, if_pos h]
  · by_cases hlen : a.length = b.length
    · have hden : Real.sqrt (dotList a a) * Real.sqrt (dotList b b) = 0 := by
        rcases h with h | h <;> rw [h] <;> ring
      rw [cosineSimilarity, if_neg (not_ne_iff.mpr hlen)]
      simp only [if_pos hden]
    · rw [cosineSimilarity, if_pos hlen]
  · rw [cosineSimilarity, if_neg (not_ne_iff.mpr hlen)]
    simp only [if_neg (mul_ne_zero h1 h2)]

/-- C4 witness: vectors of lengths 2 and 1 score 0, and the concrete pair
[3,4], [4,3] with norms 5 and 5 scores 24/25. -/
theorem cosineSimilarity_spec_witness :
    cosineSimilarity Real.sqrt [(1 : ℝ), 0] [1] = 0 ∧
    cosineSimilarity Real.sqrt [(3 : ℝ), 4] [4, 3] = 24 / 25 := by
  constructor
  · exact (cosineSimilarity_spec [(1 : ℝ), 0] [1]).1 (by norm_num)
  · have hs : Real.sqrt 25 = 5 := by
      rw [show (25 : ℝ) = 5 ^ 2 by norm_num]
      exact Real.sqrt_sq (by norm_num)
    have ha : dotList [(3 : ℝ), 4] [(3 : ℝ), 4] = 25 := by norm_num [dotList]
    have hb : dotList [(4 : ℝ), 3] [(4 : ℝ), 3] = 25 := by norm_num [dotList]
    have hab : dotList [(3 : ℝ), 4] [(4 : ℝ), 3] = 24 := by norm_num [dotList]
    have h := (cosineSimilarity_spec [(3 : ℝ), 4] [4, 3]).2.2 rfl
      (by rw [ha, hs]; norm_num) (by rw [hb, hs]; norm_num)
    rw [h, ha, hb, hab, hs]
    norm_num

/-- C8: for equal-length nonempty vectors, cosine similarity is symmetric
and lies in the interval from -1 to 1. -/
theorem cosineSimilarity_sym_range (a b : List ℝ) (_h1 : a.length = b.length)
    (_h2 : a.length ≠ 0) :
    cosineSimilarity Real.sqrt a b = cosineSimilarity Real.sqrt b a ∧
    -1 ≤ cosineSimilarity Real.sqrt a b ∧ cosineSimilarity Real.sqrt a b ≤ 1 :=
  ⟨cosineSimilarity_comm Real.sqrt a b, (cosineSimilarity_abs_le a b).1,
    (cosineSimilarity_abs_le a b).2⟩

/-- C8 witness: the orthogonal pair [1,0], [0,1] of equal nonzero length. -/
theorem cosineSimilarity_sym_range_witness :
    cosineSimilarity Real.sqrt [(1 : ℝ), 0] [0, 1]
        = cosineSimilarity Real.sqrt [(0 : ℝ), 1] [1, 0] ∧
    -1 ≤ cosineSimilarity Real.sqrt [(1 : ℝ), 0] [0, 1] ∧
    cosineSimilarity Real.sqrt [(1 : ℝ), 0] [0, 1] ≤ 1 :=
  cosineSimilarity_sym_range [(1 : ℝ), 0] [0, 1] rfl (by norm_num)

omit [LinearOrderedField K] in
/-- C5: re-indexing a session all of whose messages already have a document
with the same id and identical content performs zero embedding-provider
calls and leaves the document map unchanged, whatever the outcome of the
persistence write. -/
theorem indexSession_idempotent (embedFn : String → Option (List K))
    (docsWriteOk : Bool) (db : VectorDB K) (session : Session)
    (h : ∀ m ∈ session.messages, ∃ d,
      mapGet db.documents (session.id ++ "_" ++ m.id) = some d ∧
      d.content = m.content) :
    (indexSession embedFn docsWriteOk db session).2 = 0 ∧
    (indexSession embedFn docsWriteOk db session).1.documents = db.documents := by
  have key : session.messages.foldl (indexStep embedFn session) (db, 0) = (db, 0) := by
    have general : ∀ msgs : List Message,
        (∀ m ∈ msgs, ∃ d,
          mapGet db.documents (session.id ++ "_" ++ m.id) = some d ∧
          d.content = m.content) →
        msgs.foldl (indexStep embedFn session) (db, 0) = (db, 0) := by
      intro msgs
      induction msgs with
      | nil => intro _; rfl
      | cons m rest ih =>
          intro hall
          obtain ⟨d, hd, hc⟩ := hall m (List.mem_cons_self m rest)
          have hstep : indexStep embedFn session (db, 0) m = (db, 0) := by
            simp [indexStep, hd, hc]
          rw [List.foldl_cons, hstep]
          exact ih (fun m2 hm2 => hall m2 (List.mem_cons_of_mem m hm2))
    exact general session.messages h
  refine ⟨?_, ?_⟩
  · simp [indexSession, key]
  · simp [indexSession, key, saveToStorage_documents]

/-- C5 witness: re-indexing the concrete session wSession, whose only
message is already indexed as wDoc, makes no provider call and keeps the
document map. -/
theorem indexSession_idempotent_witness :
    (indexSession (fun _ => none) true wDB wSession).2 = 0 ∧
    (indexSession (fun _ => none) true wDB wSession).1.documents
      = wDB.documents := by
  refine indexSession_idempotent (fun _ => none) true wDB wSession ?_
  intro m hm
  have hm2 : m = wMsg := by simpa [wSession] using hm
  subst hm2
  exact ⟨wDoc, by decide, by decide⟩

omit [LinearOrderedField K] in
/-- C6 (amended): when the documents-snapshot write succeeds, the
persistence step caps the embedding cache at the threshold of 1000
entries: a cache over the threshold is cut down to its most recently
inserted 500 entries (a suffix in insertion order, oldest dropped first)
and the cache size afterwards is at most 1000; but when the write throws,
the swallowed error skips the prune and the step leaves the state — and
hence an oversized cache — unchanged. -/
theorem saveToStorage_prune (db : VectorDB K) :
    (saveToStorage true db).embeddingCache.length ≤ 1000 ∧
    (saveToStorage true db).embeddingCache
      = (if 1000 < db.embeddingCache.length then
          db.embeddingCache.drop (db.embeddingCache.length - 500)
        else db.embeddingCache) ∧
    (∃ pre, pre ++ (saveToStorage true db).embeddingCache = db.embeddingCache) ∧
    (1000 < db.embeddingCache.length →
      (saveToStorage true db).embeddingCache.length = 500) ∧
    saveToStorage false db = db := by
  by_cases h : 1000 < db.embeddingCache.length
  · refine ⟨?_, ?_, ?_, ?_, rfl⟩
    · simp only [saveToStorage, if_true, if_pos h, List.length_drop]
      omega
    · simp [saveToStorage, h]
    · exact ⟨db.embeddingCache.take (db.embeddingCache.length - 500),
        by simp [saveToStorage, h]⟩
    · intro _
      simp only [saveToStorage, if_true, if_pos h, List.length_drop]
      omega
  · refine ⟨?_, ?_, ⟨[], ?_⟩, fun hc => absurd hc h, rfl⟩
    · simp only [saveToStorage, if_true, if_neg h]
      omega
    · simp [saveToStorage, h]
    · simp [saveToStorage, h]

set_option maxRecDepth 4000 in
/-- C6 witness: on a successful write, a cache of 1001 entries is pruned
to exactly 500. -/
theorem saveToStorage_prune_witness :
    (saveToStorage true { documents := [], embeddingCache := wBigCache
        : VectorDB ℚ }).embeddingCache.length = 500 := by
  refine (saveToStorage_prune _).2.2.2.1 ?_
  show 1000 < wBigCache.length
  simp only [wBigCache, List.length_map, List.length_range]
  norm_num

set_option maxRecDepth 4000 in
/-- C6 counterexample: when the documents-snapshot write throws (the error
being swallowed), the prune is skipped and a 1001-entry cache still
exceeds the 1000 threshold after the persistence step. -/
theorem saveToStorage_prune_skipped_on_failure :
    1000 < (saveToStorage false ({ documents := [], embeddingCache := wBigCache }
        : VectorDB ℚ)).embeddingCache.length := by
  have h : saveToStorage false ({ documents := [], embeddingCache := wBigCache }
      : VectorDB ℚ) = { documents := [], embeddingCache := wBigCache } := rfl
  rw [h]
  show 1000 < wBigCache.length
  simp only [wBigCache, List.length_map, List.length_range]
  norm_num

/-- C9 (amended): with an empty document map search returns ok [] before
touching the provider, and a failed createEmbedding call is caught inside
the method, returning ok []; but getOpenAI() is called outside the
try/catch, so with a non-empty document map and an unconfigured OpenAI
singleton the thrown error propagates to the caller. -/
theorem search_error_silent (sqrtFn : K → K)
    (openAIRef : Option (String → Option (List K))) (db : VectorDB K)
    (query : String) (limit : Nat) :
    (db.documents = [] →
      (search sqrtFn openAIRef db query limit).1 = Except.ok []) ∧
    (∀ embedFn, openAIRef = some embedFn → embedFn query = none →
      (search sqrtFn openAIRef db query limit).1 = Except.ok []) ∧
    (db.documents ≠ [] → openAIRef = none →
      (search sqrtFn openAIRef db query limit).1
        = Except.error "OpenAI not initialized. Please set your API key in settings.") := by
  refine ⟨?_, ?_, ?_⟩
  · intro h
    simp [search, h]
  · intro embedFn href hq
    subst href
    rw [search]
    split
    · rfl
    · rw [hq]
  · intro hne href
    subst href
    rw [search]
    rw [if_neg (fun hc => hne (List.length_eq_zero.mp hc))]

/-- C9 witness: an always-failing embedding call on a non-empty store is
caught and yields ok [], an empty store yields ok [] as well, and a
non-empty store with the provider unconfigured propagates the thrown
message. -/
theorem search_error_silent_witness :
    (search (fun x => x) (some (fun _ => none))
        ({ documents := [], embeddingCache := [] } : VectorDB ℚ) "q" 5).1
      = Except.ok [] ∧
    (search (fun x => x) (some (fun _ => none)) wDB "q" 5).1 = Except.ok [] ∧
    (search (fun x => x) (none : Option (String → Option (List ℚ))) wDB "q" 5).1
      = Except.error "OpenAI not initialized. Please set your API key in settings." := by
  refine ⟨?_, ?_, ?_⟩
  · exact (search_error_silent (fun x => x) (some (fun _ => none))
      { documents := [], embeddingCache := [] } "q" 5).1 rfl
  · exact (search_error_silent (fun x => x) (some (fun _ => none))
      wDB "q" 5).2.1 (fun _ => none) rfl rfl
  · exact (search_error_silent (fun x => x) none wDB "q" 5).2.2 (by decide) rfl

/-- C9 counterexample: with the one-document store and the OpenAI singleton
never configured, search rejects to its caller with the thrown
initialisation error instead of returning a list. -/
theorem search_raises_no_provider :
    (search (fun x => x) (none : Option (String → Option (List ℚ))) wDB "q" 10).1
      = Except.error "OpenAI not initialized. Please set your API key in settings." := by
  rfl

/-- C10: search and findSimilar are read-only: on every path — provider
missing, embedding failure, or success — they return the store state
unchanged, so the document map and the embedding cache are untouched; in
particular findSimilar does not insert a freshly computed embedding into
the cache. -/
theorem search_findSimilar_readonly (sqrtFn : K → K)
    (openAIRef : Option (String → Option (List K))) (db : VectorDB K)
    (query messageContent : String) (excludeSessionId : Option String)
    (limit limit2 : Nat) :
    (search sqrtFn openAIRef db query limit).2 = db ∧
    (findSimilar sqrtFn openAIRef db messageContent excludeSessionId limit2).2
      = db := by
  constructor
  · rw [search.eq_def]
    split
    · rfl
    · cases openAIRef with
      | none => rfl
      | some embedFn =>
          dsimp only
          cases embedFn query with
          | none => rfl
          | some qe => rfl
  · rw [findSimilar.eq_def]
    cases openAIRef with
    | none => rfl
    | some embedFn =>
        dsimp only
        cases hc : mapGet db.embeddingCache messageContent with
        | some e => rfl
        | none =>
            cases he : embedFn messageContent with
            | none => rfl
            | some e => rfl

/-- C3 (amended): with a configured provider search always returns ok;
the returned list embeds the query, scores every stored document by cosine
similarity, and holds at most limit results sorted in descending order of
score; the sort is stable, so equal scores keep the document-map insertion
order — ties are NOT reordered by createdAt; a document whose embedding
equals the query embedding (of nonzero norm) attains the maximal score 1
and the first returned result has score 1. -/
theorem search_ranking (embedFn : String → Option (List ℝ)) (db : VectorDB ℝ)
    (query : String) (limit : Nat) :
    (∃ rs, (search Real.sqrt (some embedFn) db query limit).1 = Except.ok rs) ∧
    (∀ rs, (search Real.sqrt (some embedFn) db query limit).1 = Except.ok rs →
      rs.length ≤ limit ∧
      rs.Sorted (fun r1 r2 => r2.score ≤ r1.score) ∧
      (∀ qe, embedFn query = some qe → ∀ r ∈ rs,
        ∃ d ∈ db.documents.map Prod.snd,
          r = toSearchResult (d, cosineSimilarity Real.sqrt qe d.embedding)) ∧
      (∀ qe, embedFn query = some qe → db.documents ≠ [] →
        rs.length = min limit db.documents.length) ∧
      (∀ qe d, embedFn query = some qe → d ∈ db.documents.map Prod.snd →
        d.embedding = qe → dotList qe qe ≠ 0 → 0 < limit →
        ∃ r, rs.head? = some r ∧ r.score = 1)) ∧
    (∀ (l : List (VectorDocument ℝ × ℝ)) (a b : VectorDocument ℝ × ℝ),
      scoreDominates a b → List.Sublist [a, b] l →
      List.Sublist [a, b] (List.insertionSort scoreDominates l)) := by
  by_cases hempty : db.documents.length = 0
  · have hout : (search Real.sqrt (some embedFn) db query limit).1
        = Except.ok [] := by
      simp [search, hempty]
    have hnil : db.documents = [] := List.length_eq_zero.mp hempty
    refine ⟨⟨[], hout⟩, ?_, ?_⟩
    · intro rs hrs
      rw [hout] at hrs
      injection hrs with hrs2
      subst hrs2
      refine ⟨by simp, by simp, ?_, ?_, ?_⟩
      · intro qe _ r hr
        simp at hr
      · intro qe _ hne
        exact absurd hnil hne
      · intro qe d _ hd _ _ _
        rw [hnil] at hd
        simp at hd
    · intro l a b hab hsub
      exact List.pair_sublist_insertionSort hab hsub
  · cases hq : embedFn query with
    | none =>
        have hout : (search Real.sqrt (some embedFn) db query limit).1
            = Except.ok [] := by
          rw [search, if_neg hempty]
          dsimp only
          rw [hq]
        refine ⟨⟨[], hout⟩, ?_, ?_⟩
        · intro rs hrs
          rw [hout] at hrs
          injection hrs with hrs2
          subst hrs2
          refine ⟨by simp, by simp, ?_, ?_, ?_⟩
          · intro qe hqe
            cases hqe
          · intro qe hqe
            cases hqe
          · intro qe d hqe
            cases hqe
        · intro l a b hab hsub
          exact List.pair_sublist_insertionSort hab hsub
    | some qe0 =>
        have hout : (search Real.sqrt (some embedFn) db query limit).1
            = Except.ok (((List.insertionSort scoreDominates
                (db.documents.map (fun kv =>
                  (kv.2, cosineSimilarity Real.sqrt qe0 kv.2.embedding)))).take
                limit).map toSearchResult) := by
          rw [search, if_neg hempty]
          dsimp only
          rw [hq]
        refine ⟨⟨_, hout⟩, ?_, ?_⟩
        · intro rs hrs
          rw [hout] at hrs
          injection hrs with hrs2
          subst hrs2
          refine ⟨?_, ?_, ?_, ?_, ?_⟩
          · rw [out_length]
            exact min_le_left _ _
          · exact sorted_take_map _ limit
          · intro qe hqe r hr
            injection hqe with hinj
            subst hinj
            obtain ⟨p, hp, hpr⟩ := out_mem _ limit r hr
            obtain ⟨kv, hkv, hkvp⟩ := List.mem_map.mp hp
            refine ⟨kv.2, List.mem_map.mpr ⟨kv, hkv, rfl⟩, ?_⟩
            rw [hpr, ← hkvp]
          · intro qe hqe _
            injection hqe with hinj
            subst hinj
            rw [out_length, List.length_map]
          · intro qe d hqe hd hde hqq hlim
            injection hqe with hinj
            subst hinj
            refine out_head_one _ limit hlim
              (d, cosineSimilarity Real.sqrt qe0 d.embedding) ?_ ?_ ?_
            · obtain ⟨kv, hkv, hkvd⟩ := List.mem_map.mp hd
              exact List.mem_map.mpr ⟨kv, hkv, by rw [hkvd]⟩
            · show cosineSimilarity Real.sqrt qe0 d.embedding = 1
              rw [hde]
              exact cosineSimilarity_self_eq_one qe0 hqq
            · intro p hp
              obtain ⟨kv, _, hkvp⟩ := List.mem_map.mp hp
              rw [← hkvp]
              exact (cosineSimilarity_abs_le qe0 kv.2.embedding).2
        · intro l a b hab hsub
          exact List.pair_sublist_insertionSort hab hsub

/-- C3 witness: a store with one document whose embedding [1] equals the
query embedding returns ok, ranks it first with score exactly 1, and the
result list has length min 10 1 = 1. -/
theorem search_ranking_witness :
    ∃ rs, (search Real.sqrt (some (fun _ => some [1])) wDBR "hello" 10).1
        = Except.ok rs ∧
      (∃ r, rs.head? = some r ∧ r.score = 1) ∧
      rs.length = min 10 wDBR.documents.length := by
  have h := search_ranking (fun _ => some [1]) wDBR "hello" 10
  obtain ⟨rs, hrs⟩ := h.1
  refine ⟨rs, hrs, ?_, ?_⟩
  · refine (h.2.1 rs hrs).2.2.2.2 [1] wDocR rfl ?_ rfl ?_ ?_
    · show wDocR ∈ [("s_m", wDocR)].map Prod.snd
      simp
    · show dotList [(1 : ℝ)] [1] ≠ 0
      norm_num [dotList]
    · norm_num
  · refine (h.2.1 rs hrs).2.2.2.1 [1] rfl ?_
    show ([("s_m", wDocR)] : List (String × VectorDocument ℝ)) ≠ []
    simp

/-- C3 counterexample: two documents tie with score 1; the code's stable
sort keeps document-map insertion order, so the older document (timestamp
10, inserted first) is returned before the newer one (timestamp 20) — ties
are not broken by more-recent createdAt first. -/
theorem search_tie_not_recency :
    ((search Real.sqrt (some (fun _ => some [1])) wDB2 "q" 10).1.map
      (fun rs => rs.map (fun r => r.timestamp))) = Except.ok [10, 20] := by
  have hsim : cosineSimilarity Real.sqrt [(1 : ℝ)] [1] = 1 :=
    cosineSimilarity_self_eq_one [(1 : ℝ)] (by norm_num [dotList])
  rw [search]
  rw [if_neg (by simp [wDB2])]
  dsimp only
  simp only [wDB2, wDocOld, wDocNew, List.map_cons, List.map_nil]
  rw [hsim]
  simp [List.insertionSort, List.orderedInsert, scoreDominates, toSearchResult,
    Except.map]

end SlashCommand
